import Mathlib

/-!
# Verification of the `lazy_errors` error-aggregation core

A shallow embedding of the central data model and operations of the
`lazy_errors` Rust crate, together with theorems about the behaviour of
those operations.

Modelling conventions:
* The generic inner error type `I` of the crate stays a type parameter.
* `#[track_caller]` location capture is modelled by passing the captured
  `Location` (a plain string, per the crate's `Location` alias) explicitly
  to each operation that would capture one in Rust.
* Trait bounds `M: Display` and `E: Into<I>` are modelled by explicit
  function parameters `dispM : M → String` and `intoI : E → I`.
* Mutation via `&mut` is modelled by explicit state passing: an operation
  that mutates a stash returns the updated stash.
* The one-shot summary closure of `ErrorStash::Empty` is modelled as a
  function `Unit → M`; operations that may invoke it additionally return
  how many times they invoked it, so that laziness is observable.
-/

namespace LazyErrors

/-- Model of `pub type Location = &'static core::panic::Location<'static>;`
rendered as text (it only ever appears via `Display` in this crate). -/
abbrev Location := String

/-- Model of `AdHocError` from `error.rs`: a message plus a captured location. -/
structure AdHocError where
  message : String
  location : Location
deriving DecidableEq

/-- Model of `WrappedError<I>` from `error.rs`: an optional context message,
one inner error, and a captured location. -/
structure WrappedError (I : Type) where
  context : Option String
  inner : I
  location : Location
deriving DecidableEq

/-- Model of `StashedErrors<I>` from `error.rs`: a summary plus parallel sequences
of errors and locations. -/
structure StashedErrors (I : Type) where
  summary : String
  errors : List I
  locations : List Location
deriving DecidableEq

/-- Model of `ErrorData<I>` from `error.rs` (the payload of `Error<I>`; the `Box`
of `Error` is representation-only and is not modelled). -/
inductive ErrorData (I : Type) where
  | Stashed : StashedErrors I → ErrorData I
  | Wrapped : WrappedError I → ErrorData I
  | AdHoc : AdHocError → ErrorData I
deriving DecidableEq

/-- Model of `StashWithErrors<I>` from `stash.rs`. -/
structure StashWithErrors (I : Type) where
  summary : String
  errors : List I
  locations : List Location
deriving DecidableEq

/-- Model of `ErrorStash<F, M, I>` from `stash.rs`: either still empty (holding the
un-evaluated summary generator) or wrapping a `StashWithErrors`. -/
inductive ErrorStash (M I : Type) where
  | Empty : (Unit → M) → ErrorStash M I
  | WithErrors : StashWithErrors I → ErrorStash M I

/-- Model of `StashedResult<T, I>` from `or_stash.rs`. In Rust the `Err` variant
borrows the `StashWithErrors` mutably; here the stash is threaded
explicitly as state, so the marker itself carries no payload in `Err`. -/
inductive StashedResult (T : Type) where
  | Ok : T → StashedResult T
  | Err : StashedResult T
deriving DecidableEq

/-- Model of `StashWithErrors::from` (`stash.rs`): one error, one location,
summary rendered via `Display`. -/
def StashWithErrors.from' {M E I : Type} (dispM : M → String) (intoI : E → I)
    (summary : M) (error : E) (loc : Location) : StashWithErrors I :=
  { summary := dispM summary
    errors := [intoI error]
    locations := [loc] }

/-- Model of `StashWithErrors::push` (`stash.rs`): append the converted error and
the captured location. -/
def StashWithErrors.push {E I : Type} (intoI : E → I)
    (s : StashWithErrors I) (err : E) (loc : Location) : StashWithErrors I :=
  { s with
    errors := s.errors ++ [intoI err]
    locations := s.locations ++ [loc] }

/-- The summary of the placeholder left behind by `StashWithErrors::take`
(`stash.rs`, constant `WARNING`). -/
def takeWarning : String := "Internal error: Error info cleared by take()"

/-- Model of `StashWithErrors::take` (`stash.rs`): swap `self` with a placeholder.
Returns `(returned value, new contents of self)`. -/
def StashWithErrors.take {I : Type} (s : StashWithErrors I) :
    StashWithErrors I × StashWithErrors I :=
  (s, { summary := takeWarning, errors := [], locations := [] })

/-- Model of `impl From<StashWithErrors<I>> for Error<I>` (`stash.rs`), composed
with `Error::from_stash`/`StashedErrors::from` (`error.rs`). -/
def StashWithErrors.intoError {I : Type} (s : StashWithErrors I) : ErrorData I :=
  ErrorData.Stashed
    { summary := s.summary, errors := s.errors, locations := s.locations }

/-- Model of `ErrorStash::push_and_convert` (`stash.rs`). Also returns the number of
times the summary generator was invoked during the call (1 when the stash
was `Empty`, 0 otherwise); the Rust code invokes `f()` exactly in the
`Empty` branch. -/
def ErrorStash.push_and_convert {M E I : Type} (dispM : M → String)
    (intoI : E → I) (st : ErrorStash M I) (err : E) (loc : Location) :
    StashWithErrors I × Nat :=
  match st with
  | ErrorStash.Empty f => (StashWithErrors.from' dispM intoI (f ()) err loc, 1)
  | ErrorStash.WithErrors stash => (stash.push intoI err loc, 0)

/-- Model of `ErrorStash::push` (`stash.rs`): swaps `self` out, delegates to
`push_and_convert` and stores the resulting `StashWithErrors` back.
Returns the updated stash and the summary-generator invocation count. -/
def ErrorStash.push {M E I : Type} (dispM : M → String) (intoI : E → I)
    (st : ErrorStash M I) (err : E) (loc : Location) :
    ErrorStash M I × Nat :=
  let r := st.push_and_convert dispM intoI err loc
  (ErrorStash.WithErrors r.1, r.2)

/-- Model of `ErrorStash::is_empty` (`stash.rs`). -/
def ErrorStash.is_empty {M I : Type} : ErrorStash M I → Bool
  | ErrorStash.Empty _ => true
  | ErrorStash.WithErrors _ => false

/-- Model of `ErrorStash::errors` (`stash.rs`), via `StashWithErrors::errors`. -/
def ErrorStash.errors {M I : Type} : ErrorStash M I → List I
  | ErrorStash.Empty _ => []
  | ErrorStash.WithErrors stash => stash.errors

/-- Model of `impl From<ErrorStash> for Result<(), Error>` (`stash.rs`), which is
also what `ErrorStash::into_result` returns. -/
def ErrorStash.into_result {M I : Type} :
    ErrorStash M I → Except (ErrorData I) Unit
  | ErrorStash.Empty _ => Except.ok ()
  | ErrorStash.WithErrors stash => Except.error stash.intoError

/-- Model of `EnforceErrors::enforce_errors` for `ErrorStash` (`stash.rs`): when the
stash is still `Empty`, push `err!("INTERNAL ERROR")` (an `AdHocError`
converted via `Error<I>: Into<I>`, modelled by `errIntoI`); otherwise
leave the stash unchanged. -/
def ErrorStash.enforce_errors {M I : Type} (dispM : M → String)
    (errIntoI : ErrorData I → I) (st : ErrorStash M I) (loc : Location) :
    ErrorStash M I :=
  match st with
  | ErrorStash.Empty _ =>
      (st.push dispM errIntoI
        (ErrorData.AdHoc { message := "INTERNAL ERROR", location := loc })
        loc).1
  | ErrorStash.WithErrors _ => st

/-- Model of `EnforceErrors::enforce_errors` for `StashWithErrors` (`stash.rs`):
the identity. -/
def StashWithErrors.enforce_errors {I : Type} (s : StashWithErrors I) :
    StashWithErrors I :=
  s

/-- Rust's `str::lines` for strings that contain no carriage returns
(the only line separator produced by this crate's renderer is `'\n'`):
no line for the empty string, and no trailing empty line after a final
newline. -/
def rustLines (s : String) : List String :=
  if s.isEmpty then []
  else (if s.back = '\n' then s.dropRight 1 else s).splitOn "\n"

/-- Model of `display_location` (`error.rs`): a fresh line `"<indent>at <location>"`. -/
def display_location (indent : String) (loc : Location) : String :=
  "\n" ++ indent ++ "at " ++ loc

/-- The loop of `display_multiline` (`error.rs`): the bullet `"- "` before
the first rendered line, `"  "` before every further rendered line. -/
def displayMultilineAux : String → List String → String
  | _, [] => ""
  | pre, l :: ls => "\n" ++ pre ++ l ++ displayMultilineAux "  " ls

/-- Model of `display_multiline` (`error.rs`): render the child's pretty
(`alternate`) form, one output line per rendered line. `dispI b e` is the
`Display` of the inner type `I` (`b = true` for the alternate form). -/
def display_multiline {I : Type} (dispI : Bool → I → String) (err : I) :
    String :=
  displayMultilineAux "- " (rustLines (dispI true err))

/-- Model of `display_list_of_children` (`error.rs`): one block and one location
line per `zip`ped error/location pair. -/
def display_list_of_children {I : Type} (dispI : Bool → I → String)
    (errs : List I) (locs : List Location) : String :=
  String.join ((errs.zip locs).map
    (fun p => display_multiline dispI p.1 ++ display_location "  " p.2))

/-- Model of `impl Display for StashedErrors` (`error.rs`): compact (`is_pretty =
false`) or pretty (`is_pretty = true`) rendering, with the defensive
branches for empty `errors` and empty `locations`. -/
def StashedErrors.display {I : Type} (dispI : Bool → I → String)
    (se : StashedErrors I) (is_pretty : Bool) : String :=
  match se.errors, se.locations, is_pretty with
  | [], _, _ => se.summary ++ ": 0 errors"
  | _, [], _ => se.summary ++ ": 0 source locations"
  | [e], _, false => se.summary ++ ": " ++ dispI false e
  | errs, _, false =>
      se.summary ++ " (" ++ toString errs.length ++ " errors)"
  | errs, locs, true =>
      se.summary ++ display_list_of_children dispI errs locs

/-- Model of `OrWrap::or_wrap` (`or_wrap.rs`) on the `Result` items of
`try_collect_or_stash`: wrap the error into a context-free
`WrappedError`, capturing the location. -/
def or_wrap {T E I : Type} (intoI : E → I) (r : Except E T)
    (loc : Location) : Except (ErrorData I) T :=
  match r with
  | Except.ok t => Except.ok t
  | Except.error e =>
      Except.error
        (ErrorData.Wrapped { context := none, inner := intoI e, location := loc })

/-- Model of `StashErrIter::next` (`stash_err.rs`) driven to exhaustion by
`collect`: every `Err` item is pushed into the stash (via `or_stash`,
i.e. `ErrorStash::push`) in traversal order, every `Ok` item is kept in
traversal order. -/
def stashErrCollect {M E T I : Type} (dispM : M → String) (intoI : E → I) :
    List (Except E T) → ErrorStash M I → Location →
    List T × ErrorStash M I
  | [], st, _ => ([], st)
  | Except.ok t :: rest, st, loc =>
      let r := stashErrCollect dispM intoI rest st loc
      (t :: r.1, r.2)
  | Except.error e :: rest, st, loc =>
      stashErrCollect dispM intoI rest ((st.push dispM intoI e loc).1) loc

/-- Model of `try_collect_or_stash` (`try_collect_or_stash.rs`): record the error
count, wrap every item with `or_wrap`, drain through `stash_err` +
`collect`, and report `Err` exactly when the count grew (then coerced
non-empty via `enforce_errors`). -/
def try_collect_or_stash {M E T I : Type} (dispM : M → String)
    (intoI : E → I) (errIntoI : ErrorData I → I)
    (items : List (Except E T)) (st : ErrorStash M I) (loc : Location) :
    StashedResult (List T) × ErrorStash M I :=
  let before := st.errors.length
  let r := stashErrCollect dispM errIntoI
    (items.map (fun x => or_wrap intoI x loc)) st loc
  let after := r.2.errors.length
  if before = after then (StashedResult.Ok r.1, r.2)
  else (StashedResult.Err, r.2.enforce_errors dispM errIntoI loc)

/-- Model of `filter_map_or_stash` (`try_map_or_stash.rs`): map each element,
keep the successes in order, push each failure (via `or_stash`). -/
def filter_map_or_stash {M T E U I : Type} (dispM : M → String)
    (intoI : E → I) (f : T → Except E U) :
    List T → ErrorStash M I → Location → List U × ErrorStash M I
  | [], st, _ => ([], st)
  | t :: rest, st, loc =>
      match f t with
      | Except.ok u =>
          let r := filter_map_or_stash dispM intoI f rest st loc
          (u :: r.1, r.2)
      | Except.error e =>
          filter_map_or_stash dispM intoI f rest
            ((st.push dispM intoI e loc).1) loc

/-- Model of `filter_map_ok_or_stash` (`try_map_or_stash.rs`): like
`filter_map_or_stash` but over `Result` elements; `Err` elements are
stashed directly, `Ok` elements are mapped through `f`. -/
def filter_map_ok_or_stash {M T E1 E2 U I : Type} (dispM : M → String)
    (intoI1 : E1 → I) (intoI2 : E2 → I) (f : T → Except E2 U) :
    List (Except E1 T) → ErrorStash M I → Location →
    List U × ErrorStash M I
  | [], st, _ => ([], st)
  | Except.ok t :: rest, st, loc =>
      match f t with
      | Except.ok u =>
          let r := filter_map_ok_or_stash dispM intoI1 intoI2 f rest st loc
          (u :: r.1, r.2)
      | Except.error e =>
          filter_map_ok_or_stash dispM intoI1 intoI2 f rest
            ((st.push dispM intoI2 e loc).1) loc
  | Except.error e :: rest, st, loc =>
      filter_map_ok_or_stash dispM intoI1 intoI2 f rest
        ((st.push dispM intoI1 e loc).1) loc

/-- Model of `vec_try_into_or_stash` (`try_map_or_stash.rs`): `Vec::try_into` the
fixed-size array of length `n` succeeds exactly when the lengths match;
on failure the `err!("INTERNAL ERROR: …")` message is stashed. -/
def vec_try_into_or_stash {M U I : Type} (dispM : M → String)
    (errIntoI : ErrorData I → I) (vec : List U) (n : Nat)
    (st : ErrorStash M I) (loc : Location) :
    StashedResult (List U) × ErrorStash M I :=
  if vec.length = n then (StashedResult.Ok vec, st)
  else
    (StashedResult.Err,
      (st.push dispM errIntoI
        (ErrorData.AdHoc
          { message := "INTERNAL ERROR: Failed to convert vector to array"
            location := loc })
        loc).1)

/-- Model of `TryMapOrStash::try_map_or_stash` for `[T; N]`
(`try_map_or_stash.rs`). The array is modelled as a list; `N` is its
length. -/
def try_map_or_stash {M T E U I : Type} (dispM : M → String)
    (intoI : E → I) (errIntoI : ErrorData I → I) (arr : List T)
    (f : T → Except E U) (st : ErrorStash M I) (loc : Location) :
    StashedResult (List U) × ErrorStash M I :=
  let r := filter_map_or_stash dispM intoI f arr st loc
  if r.1.length ≠ arr.length then
    (StashedResult.Err, r.2.enforce_errors dispM errIntoI loc)
  else vec_try_into_or_stash dispM errIntoI r.1 arr.length r.2 loc

/-- Model of `TryMapOrStash::try_map_or_stash` for `[Result<T, E1>; N]`
(`try_map_or_stash.rs`). -/
def try_map_or_stash_results {M T E1 E2 U I : Type} (dispM : M → String)
    (intoI1 : E1 → I) (intoI2 : E2 → I) (errIntoI : ErrorData I → I)
    (arr : List (Except E1 T)) (f : T → Except E2 U)
    (st : ErrorStash M I) (loc : Location) :
    StashedResult (List U) × ErrorStash M I :=
  let r := filter_map_ok_or_stash dispM intoI1 intoI2 f arr st loc
  if r.1.length ≠ arr.length then
    (StashedResult.Err, r.2.enforce_errors dispM errIntoI loc)
  else vec_try_into_or_stash dispM errIntoI r.1 arr.length r.2 loc

/-- The `Err` arm of the `try2!` macro (`try2.rs`): take the stash's
contents, convert them into the terminal `Error`, and leave the
placeholder behind. Returns `(the Error to return, residual stash)`. -/
def try2Err {I : Type} (s : StashWithErrors I) :
    ErrorData I × StashWithErrors I :=
  let r := s.take
  (r.1.intoError, r.2)

/-- Driver for the laziness and push-order statements: perform a whole
sequence of `StashWithErrors::push` calls. -/
def StashWithErrors.pushAll {E I : Type} (intoI : E → I)
    (s : StashWithErrors I) : List (E × Location) → StashWithErrors I
  | [] => s
  | (e, l) :: rest => (s.push intoI e l).pushAll intoI rest

/-- Driver for the laziness statements: perform a whole sequence of
`ErrorStash::push` calls, summing the summary-generator invocation
counts reported by the individual calls. -/
def ErrorStash.pushAll {M E I : Type} (dispM : M → String) (intoI : E → I)
    (st : ErrorStash M I) : List (E × Location) → ErrorStash M I × Nat
  | [] => (st, 0)
  | (e, l) :: rest =>
      let r := st.push dispM intoI e l
      let r2 := r.1.pushAll dispM intoI rest
      (r2.1, r.2 + r2.2)

/-- Model of `Result::Err` items of a sequence, in traversal order. -/
def errItems {T E : Type} (items : List (Except E T)) : List E :=
  items.filterMap (fun x => match x with
    | Except.error e => some e
    | Except.ok _ => none)

/-- Model of `Result::Ok` items of a sequence, in traversal order. -/
def okItems {T E : Type} (items : List (Except E T)) : List T :=
  items.filterMap (fun x => match x with
    | Except.ok t => some t
    | Except.error _ => none)

section Lemmas

variable {M E I T U : Type}

theorem StashWithErrors.pushAll_spec (intoI : E → I) (s : StashWithErrors I)
    (ps : List (E × Location)) :
    s.pushAll intoI ps =
      { summary := s.summary
        errors := s.errors ++ ps.map (fun p => intoI p.1)
        locations := s.locations ++ ps.map Prod.snd } := by
  induction ps generalizing s with
  | nil => simp [StashWithErrors.pushAll]
  | cons p rest ih =>
      obtain ⟨e, l⟩ := p
      simp [StashWithErrors.pushAll, StashWithErrors.push, ih]

theorem ErrorStash.pushAll_withErrors (dispM : M → String) (intoI : E → I)
    (s : StashWithErrors I) (ps : List (E × Location)) :
    (ErrorStash.WithErrors s : ErrorStash M I).pushAll dispM intoI ps =
      (ErrorStash.WithErrors (s.pushAll intoI ps), 0) := by
  induction ps generalizing s with
  | nil => simp [ErrorStash.pushAll, StashWithErrors.pushAll]
  | cons p rest ih =>
      obtain ⟨e, l⟩ := p
      simp [ErrorStash.pushAll, ErrorStash.push, ErrorStash.push_and_convert,
        StashWithErrors.pushAll, ih]

end Lemmas

/-- Claim C1: For an `ErrorStash` created with summary generator `f`:
no push means no generator invocation; any non-empty sequence of pushes
invokes the generator exactly once, the stored summary is the rendering
of that single invocation's result, and every push appends its converted
error and captured location without changing the summary. -/
theorem errorStash_push_lazy_summary {M E I : Type} (dispM : M → String)
    (intoI : E → I) (f : Unit → M) (ps : List (E × Location)) :
    ((ErrorStash.Empty f : ErrorStash M I).pushAll dispM intoI ps).2 =
      (if ps.isEmpty then 0 else 1) ∧
    (ps ≠ [] →
      ((ErrorStash.Empty f : ErrorStash M I).pushAll dispM intoI ps).1 =
        ErrorStash.WithErrors
          { summary := dispM (f ())
            errors := ps.map (fun p => intoI p.1)
            locations := ps.map Prod.snd }) := by
  cases ps with
  | nil => simp [ErrorStash.pushAll]
  | cons p rest =>
      obtain ⟨e, l⟩ := p
      simp only [ErrorStash.pushAll, ErrorStash.push,
        ErrorStash.push_and_convert, ErrorStash.pushAll_withErrors,
        StashWithErrors.pushAll_spec, StashWithErrors.from']
      simp

/-- Witness for `errorStash_push_lazy_summary` at a concrete two-push run. -/
theorem errorStash_push_lazy_summary_witness :
    ((ErrorStash.Empty (fun _ => "Oops") : ErrorStash String String).pushAll
        id id [("a", "l1"), ("b", "l2")]).1 =
      ErrorStash.WithErrors
        { summary := "Oops", errors := ["a", "b"], locations := ["l1", "l2"] } :=
  (errorStash_push_lazy_summary id id (fun _ => "Oops")
    [("a", "l1"), ("b", "l2")]).2 (by decide)

/-- The `StashWithErrors` values produced by the crate's constructors:
built by `StashWithErrors::from` and grown by `StashWithErrors::push`. -/
inductive StashWithErrors.Built {M E I : Type} (dispM : M → String)
    (intoI : E → I) : StashWithErrors I → Prop
  | base (summary : M) (e : E) (l : Location) :
      StashWithErrors.Built dispM intoI
        (StashWithErrors.from' dispM intoI summary e l)
  | step (s : StashWithErrors I) (e : E) (l : Location) :
      StashWithErrors.Built dispM intoI s →
      StashWithErrors.Built dispM intoI (s.push intoI e l)

/-- Claim C2, counterexample: `take()` is an operation that leaves behind a
`StashWithErrors` whose `errors`/`locations` both have length `0`, so the
`≥ 1` bound does not hold for *every* `StashWithErrors` produced by
*every* operation. -/
theorem stashWithErrors_take_residual_violates_invariant :
    (((StashWithErrors.from' (id : String → String) (id : String → String)
          "summary" "e" "loc").take).2.errors.length = 0) ∧
    ¬ (1 ≤ ((StashWithErrors.from' (id : String → String)
          (id : String → String) "summary" "e" "loc").take).2.errors.length) := by
  constructor
  · rfl
  · decide

/-- Claim C2, amended: Every `StashWithErrors` built by `from` and `push`
(i.e. every one except the residue left behind by `take()`) has
`errors` and `locations` of equal length `≥ 1`, and the `StashedErrors`
obtained from it carries exactly the same sequences; moreover a sequence
of `N` pushes after `from` stores exactly those `N` converted errors in
push order, with the `k`-th location captured at the `k`-th push. -/
theorem stashWithErrors_built_invariant {M E I : Type} (dispM : M → String)
    (intoI : E → I) :
    (∀ s : StashWithErrors I, StashWithErrors.Built dispM intoI s →
      s.errors.length = s.locations.length ∧
      1 ≤ s.errors.length ∧
      s.intoError =
        ErrorData.Stashed
          { summary := s.summary, errors := s.errors,
            locations := s.locations }) ∧
    (∀ (summary : M) (e : E) (l : Location) (ps : List (E × Location)),
      ((StashWithErrors.from' dispM intoI summary e l).pushAll intoI ps).errors
          = intoI e :: ps.map (fun p => intoI p.1) ∧
      ((StashWithErrors.from' dispM intoI summary e l).pushAll intoI
          ps).locations
          = l :: ps.map Prod.snd) := by
  constructor
  · intro s h
    refine ⟨?_, ?_, rfl⟩
    · induction h with
      | base summary e l => rfl
      | step s e l _ ih => simp [StashWithErrors.push, ih]
    · induction h with
      | base summary e l => simp [StashWithErrors.from']
      | step s e l _ ih => simp [StashWithErrors.push]
  · intro summary e l ps
    simp [StashWithErrors.pushAll_spec, StashWithErrors.from']

/-- Witness for `stashWithErrors_built_invariant` at a concretely built
stash. -/
theorem stashWithErrors_built_invariant_witness :
    ((StashWithErrors.from' (id : String → String) (id : String → String)
          "s" "e1" "l1").push id "e2" "l2").errors.length =
      ((StashWithErrors.from' (id : String → String) (id : String → String)
          "s" "e1" "l1").push id "e2" "l2").locations.length ∧
    1 ≤ ((StashWithErrors.from' (id : String → String)
          (id : String → String) "s" "e1" "l1").push id "e2" "l2").errors.length ∧
    ((StashWithErrors.from' (id : String → String) (id : String → String)
          "s" "e1" "l1").push id "e2" "l2").intoError =
      ErrorData.Stashed
        { summary := "s", errors := ["e1", "e2"], locations := ["l1", "l2"] } :=
  (stashWithErrors_built_invariant (id : String → String)
      (id : String → String)).1 _
    (StashWithErrors.Built.step _ "e2" "l2"
      (StashWithErrors.Built.base "s" "e1" "l1"))

/-- Claim C5: Converting an `ErrorStash` into `Result<(), Error>` yields
`Ok(())` exactly when the stash is in the `Empty` state; a `WithErrors`
stash converts to `Err` wrapping the `Stashed` node that carries exactly
the accumulated summary, errors and locations. -/
theorem errorStash_into_result_spec {M I : Type} (st : ErrorStash M I) :
    (st.into_result = Except.ok () ↔ st.is_empty = true) ∧
    (∀ s, st = ErrorStash.WithErrors s →
      st.into_result =
        Except.error
          (ErrorData.Stashed
            { summary := s.summary, errors := s.errors,
              locations := s.locations })) := by
  cases st with
  | Empty f =>
      refine ⟨by simp [ErrorStash.into_result, ErrorStash.is_empty], ?_⟩
      intro s h
      cases h
  | WithErrors s =>
      refine ⟨by simp [ErrorStash.into_result, ErrorStash.is_empty], ?_⟩
      intro s' h
      cases h
      rfl

/-- Witness for `errorStash_into_result_spec` at a concrete non-empty
stash. -/
theorem errorStash_into_result_spec_witness :
    (ErrorStash.WithErrors
        { summary := "s", errors := ["e"], locations := ["l"] } :
        ErrorStash String String).into_result =
      Except.error
        (ErrorData.Stashed
          { summary := "s", errors := ["e"], locations := ["l"] }) :=
  (errorStash_into_result_spec
      (ErrorStash.WithErrors
        { summary := "s", errors := ["e"], locations := ["l"] })).2 _ rfl

/-- Claim C8: The non-emptiness coercion: on an `Empty` stash it pushes
exactly one placeholder `AdHoc` error with message `"INTERNAL ERROR"`
(evaluating the summary generator for the summary); on a non-empty stash
it changes nothing; and applying it twice is the same as applying it
once. The `StashWithErrors` instance is the identity outright. -/
theorem enforceErrors_idempotent {M I : Type} (dispM : M → String)
    (errIntoI : ErrorData I → I) :
    (∀ (f : Unit → M) (loc : Location),
      (ErrorStash.Empty f : ErrorStash M I).enforce_errors dispM errIntoI loc =
        ErrorStash.WithErrors
          { summary := dispM (f ())
            errors :=
              [errIntoI
                (ErrorData.AdHoc
                  { message := "INTERNAL ERROR", location := loc })]
            locations := [loc] }) ∧
    (∀ (s : StashWithErrors I) (loc : Location),
      (ErrorStash.WithErrors s : ErrorStash M I).enforce_errors dispM errIntoI
          loc =
        ErrorStash.WithErrors s) ∧
    (∀ (st : ErrorStash M I) (loc loc' : Location),
      (st.enforce_errors dispM errIntoI loc).enforce_errors dispM errIntoI
          loc' =
        st.enforce_errors dispM errIntoI loc) ∧
    (∀ s : StashWithErrors I, s.enforce_errors = s) := by
  refine ⟨fun f loc => rfl, fun s loc => rfl, ?_, fun s => rfl⟩
  intro st loc loc'
  cases st with
  | Empty f => rfl
  | WithErrors s => rfl

/-- Claim C9: `take()` hands back exactly the prior contents and leaves a
placeholder with zero errors, zero locations and the distinguishable
summary `"Internal error: Error info cleared by take()"`; a second
`take()` therefore only ever returns that placeholder; and the `try2!`
early-return arm converts the taken contents into the terminal `Error`
carrying exactly the accumulated summary, errors and locations. -/
theorem stashWithErrors_take_spec {I : Type} (s : StashWithErrors I) :
    s.take.1 = s ∧
    s.take.2 =
      { summary := takeWarning, errors := [], locations := [] } ∧
    takeWarning = "Internal error: Error info cleared by take()" ∧
    (s.take.2).take.1 =
      { summary := takeWarning, errors := [], locations := [] } ∧
    try2Err s =
      (ErrorData.Stashed
        { summary := s.summary, errors := s.errors,
          locations := s.locations },
       { summary := takeWarning, errors := [], locations := [] }) :=
  ⟨rfl, rfl, rfl, rfl, rfl⟩

/-- Claim C3, counterexample: A `StashedErrors` node holding exactly one
error but no location (constructible via the public
`Error::from_stash`) renders as `"<summary>: 0 source locations"`, not
as `"<summary>: <child>"`. -/
theorem stashedErrors_compact_single_error_no_locations :
    StashedErrors.display (fun _ (e : String) => e)
        { summary := "s", errors := ["e"], locations := [] } false =
      "s: 0 source locations" ∧
    StashedErrors.display (fun _ (e : String) => e)
        { summary := "s", errors := ["e"], locations := [] } false ≠
      "s" ++ ": " ++ "e" := by
  constructor
  · rfl
  · decide

/-- Claim C3, amended: Compact rendering of a `StashedErrors` node with
summary `s`: with an empty errors list it is `"s: 0 errors"`; provided
the locations list is non-empty (otherwise the defensive
`"s: 0 source locations"` branch fires), one error `e` renders as
`"s: "` followed by `e`'s compact rendering and `n ≥ 2` errors render
as `"s (n errors)"`. -/
theorem stashedErrors_compact_count_rule {I : Type}
    (dispI : Bool → I → String) (s : String) (errs : List I)
    (locs : List Location) :
    (errs = [] →
      StashedErrors.display dispI
          { summary := s, errors := errs, locations := locs } false =
        s ++ ": 0 errors") ∧
    (locs ≠ [] → ∀ e, errs = [e] →
      StashedErrors.display dispI
          { summary := s, errors := errs, locations := locs } false =
        s ++ ": " ++ dispI false e) ∧
    (locs ≠ [] → 2 ≤ errs.length →
      StashedErrors.display dispI
          { summary := s, errors := errs, locations := locs } false =
        s ++ " (" ++ toString errs.length ++ " errors)") := by
  refine ⟨?_, ?_, ?_⟩
  · intro h
    subst h
    cases locs <;> rfl
  · intro hlocs e he
    subst he
    cases locs with
    | nil => exact absurd rfl hlocs
    | cons l ls => rfl
  · intro hlocs hlen
    cases locs with
    | nil => exact absurd rfl hlocs
    | cons l ls =>
        cases errs with
        | nil => simp at hlen
        | cons e es =>
            cases es with
            | nil => simp at hlen
            | cons e2 es2 => rfl

/-- Witness for `stashedErrors_compact_count_rule`: the two-error case at
a concrete node. -/
theorem stashedErrors_compact_count_rule_witness :
    StashedErrors.display (fun _ (e : String) => e)
        { summary := "s", errors := ["a", "b"], locations := ["l1", "l2"] }
        false =
      "s" ++ " (" ++ toString (["a", "b"] : List String).length ++
        " errors)" :=
  (stashedErrors_compact_count_rule (fun _ (e : String) => e) "s"
      ["a", "b"] ["l1", "l2"]).2.2 (by decide) (by decide)

/-- Claim C10: Whenever the errors list is non-empty but the locations list
is empty, `Display` renders `"<summary>: 0 source locations"` in both
compact and pretty mode (and, the model being total, rendering is
defined for every such mismatched node). -/
theorem stashedErrors_no_locations_rendering {I : Type}
    (dispI : Bool → I → String) (s : String) (errs : List I)
    (is_pretty : Bool) (h : errs ≠ []) :
    StashedErrors.display dispI
        { summary := s, errors := errs, locations := [] } is_pretty =
      s ++ ": 0 source locations" := by
  cases errs with
  | nil => exact absurd rfl h
  | cons e es => cases es <;> cases is_pretty <;> rfl

/-- Witness for `stashedErrors_no_locations_rendering` at a concrete node
in pretty mode. -/
theorem stashedErrors_no_locations_rendering_witness :
    StashedErrors.display (fun _ (e : String) => e)
        { summary := "s", errors := ["e"], locations := [] } true =
      "s" ++ ": 0 source locations" :=
  stashedErrors_no_locations_rendering (fun _ (e : String) => e) "s" ["e"]
    true (by decide)

/-- The pretty block layout exactly as the specification words it: for
each error, a block whose first rendered line is prefixed with `"- "`
and whose continuation lines are prefixed with `"  "` (prefix chosen per
rendered line), followed by a location line `"  at <location>"` indented
two spaces deeper than the bullet. This is the spec-side description,
to be compared against the code-side `StashedErrors.display`. -/
def bulletBlockSpec (rendered : String) : String :=
  match rustLines rendered with
  | [] => ""
  | first :: rest =>
      "\n- " ++ first ++ String.join (rest.map (fun l => "\n  " ++ l))

/-- Spec-side pretty rendering of a `StashedErrors` node (see
`bulletBlockSpec`): the summary line first, then one block plus its
location line per error/location pair, in insertion order, without
reordering or deduplication. -/
def prettyRenderingSpec {I : Type} (dispI : Bool → I → String)
    (se : StashedErrors I) : String :=
  se.summary ++
    String.join ((se.errors.zip se.locations).map
      (fun p => bulletBlockSpec (dispI true p.1) ++ "\n  at " ++ p.2))

theorem stringJoin_cons (a : String) (l : List String) :
    String.join (a :: l) = a ++ String.join l := by
  apply String.ext
  simp

theorem displayMultilineAux_cont (ls : List String) :
    displayMultilineAux "  " ls =
      String.join (ls.map (fun l => "\n  " ++ l)) := by
  induction ls with
  | nil => rfl
  | cons l rest ih => simp [displayMultilineAux, ih, stringJoin_cons]

theorem display_multiline_eq_bulletBlockSpec {I : Type}
    (dispI : Bool → I → String) (e : I) :
    display_multiline dispI e = bulletBlockSpec (dispI true e) := by
  unfold display_multiline bulletBlockSpec
  cases rustLines (dispI true e) with
  | nil => rfl
  | cons first rest =>
      simp [displayMultilineAux, displayMultilineAux_cont,
        String.append_assoc]

/-- Claim C4: For every `StashedErrors` node satisfying the construction
invariant (non-empty parallel sequences of equal length), the pretty
(alternate) rendering is exactly the summary followed by, for each
error/location pair in insertion order, the error's pretty rendering
bulleted per rendered line (`"- "` on the first line, `"  "` on
continuation lines) and the `"  at <location>"` line indented two
spaces deeper than the bullet. -/
theorem stashedErrors_pretty_rendering {I : Type}
    (dispI : Bool → I → String) (se : StashedErrors I)
    (h1 : se.errors ≠ []) (h2 : se.errors.length = se.locations.length) :
    se.display dispI true = prettyRenderingSpec dispI se := by
  obtain ⟨s, errs, locs⟩ := se
  simp only at h1 h2
  cases errs with
  | nil => exact absurd rfl h1
  | cons e es =>
      cases locs with
      | nil => simp at h2
      | cons l ls =>
          show StashedErrors.display dispI
              { summary := s, errors := e :: es, locations := l :: ls }
              true = _
          unfold StashedErrors.display prettyRenderingSpec
            display_list_of_children
          simp [display_multiline_eq_bulletBlockSpec, display_location,
            String.append_assoc]

/-- Witness for `stashedErrors_pretty_rendering` at a concrete node with
two errors, one of which renders to multiple lines. -/
theorem stashedErrors_pretty_rendering_witness :
    StashedErrors.display (fun _ (e : String) => e)
        { summary := "Summary", errors := ["Foo", "Bar\nBaz"],
          locations := ["f.rs:1:2", "f.rs:3:4"] } true =
      prettyRenderingSpec (fun _ (e : String) => e)
        { summary := "Summary", errors := ["Foo", "Bar\nBaz"],
          locations := ["f.rs:1:2", "f.rs:3:4"] } :=
  stashedErrors_pretty_rendering (fun _ (e : String) => e)
    { summary := "Summary", errors := ["Foo", "Bar\nBaz"],
      locations := ["f.rs:1:2", "f.rs:3:4"] }
    (by decide) (by decide)

section CollectLemmas

variable {M E T U I : Type}

theorem okItems_nil : okItems ([] : List (Except E T)) = [] := rfl

theorem okItems_cons_ok (t : T) (rest : List (Except E T)) :
    okItems (Except.ok t :: rest) = t :: okItems rest := by
  simp [okItems]

theorem okItems_cons_error (e : E) (rest : List (Except E T)) :
    okItems (Except.error e :: rest) = okItems rest := by
  simp [okItems]

theorem errItems_nil : errItems ([] : List (Except E T)) = [] := rfl

theorem errItems_cons_ok (t : T) (rest : List (Except E T)) :
    errItems (Except.ok t :: rest) = errItems rest := by
  simp [errItems]

theorem errItems_cons_error (e : E) (rest : List (Except E T)) :
    errItems (Except.error e :: rest) = e :: errItems rest := by
  simp [errItems]

theorem okItems_errItems_length (items : List (Except E T)) :
    (okItems items).length + (errItems items).length = items.length := by
  induction items with
  | nil => rfl
  | cons x rest ih =>
      cases x with
      | ok t => simp [okItems_cons_ok, errItems_cons_ok]; omega
      | error e => simp [okItems_cons_error, errItems_cons_error]; omega

theorem push_errors (dispM : M → String) (intoI : E → I)
    (st : ErrorStash M I) (e : E) (loc : Location) :
    ((st.push dispM intoI e loc).1).errors = st.errors ++ [intoI e] := by
  cases st with
  | Empty f => rfl
  | WithErrors s => rfl

theorem enforce_errors_of_errors_ne_nil (dispM : M → String)
    (errIntoI : ErrorData I → I) (st : ErrorStash M I) (loc : Location)
    (h : st.errors ≠ []) :
    st.enforce_errors dispM errIntoI loc = st := by
  cases st with
  | Empty f => exact absurd rfl h
  | WithErrors s => rfl

theorem stashErrCollect_spec (dispM : M → String) (intoI : E → I)
    (items : List (Except E T)) (st : ErrorStash M I) (loc : Location) :
    (stashErrCollect dispM intoI items st loc).1 = okItems items ∧
    (stashErrCollect dispM intoI items st loc).2.errors =
      st.errors ++ (errItems items).map intoI := by
  induction items generalizing st with
  | nil => simp [stashErrCollect, okItems_nil, errItems_nil]
  | cons x rest ih =>
      cases x with
      | ok t =>
          simp [stashErrCollect, okItems_cons_ok, errItems_cons_ok, ih]
      | error e =>
          have := ih ((st.push dispM intoI e loc).1)
          simp [stashErrCollect, okItems_cons_error, errItems_cons_error,
            this, push_errors]

theorem or_wrap_ok (intoI : E → I) (t : T) (loc : Location) :
    or_wrap intoI (Except.ok t : Except E T) loc = Except.ok t := rfl

theorem or_wrap_error (intoI : E → I) (e : E) (loc : Location) :
    or_wrap intoI (Except.error e : Except E T) loc =
      Except.error
        (ErrorData.Wrapped
          { context := none, inner := intoI e, location := loc }) := rfl

theorem okItems_map_or_wrap (intoI : E → I) (items : List (Except E T))
    (loc : Location) :
    okItems (items.map (fun x => or_wrap intoI x loc)) = okItems items := by
  induction items with
  | nil => rfl
  | cons x rest ih =>
      cases x with
      | ok t =>
          simp only [List.map_cons, or_wrap_ok, okItems_cons_ok, ih]
      | error e =>
          simp only [List.map_cons, or_wrap_error, okItems_cons_error, ih]

theorem errItems_map_or_wrap (intoI : E → I) (items : List (Except E T))
    (loc : Location) :
    errItems (items.map (fun x => or_wrap intoI x loc)) =
      (errItems items).map (fun e =>
        ErrorData.Wrapped { context := none, inner := intoI e, location := loc }) := by
  induction items with
  | nil => rfl
  | cons x rest ih =>
      cases x with
      | ok t =>
          simp only [List.map_cons, or_wrap_ok, errItems_cons_ok, ih]
      | error e =>
          simp only [List.map_cons, or_wrap_error, errItems_cons_error, ih,
            errItems_cons_error]

end CollectLemmas

/-- Claim C6: `try_collect_or_stash` drains the whole sequence: the stash
gains exactly the (wrapped) `Err` items in traversal order; the call
returns the failure marker if and only if the stash's error count
strictly increased; with no `Err` items the success marker holds all
`Ok` items in traversal order (even if the stash already held errors
beforehand); and any `Err` item forces the failure marker. -/
theorem tryCollectOrStash_spec {M E T I : Type} (dispM : M → String)
    (intoI : E → I) (errIntoI : ErrorData I → I)
    (items : List (Except E T)) (st : ErrorStash M I) (loc : Location) :
    (try_collect_or_stash dispM intoI errIntoI items st loc).2.errors =
      st.errors ++ (errItems items).map (fun e =>
        errIntoI
          (ErrorData.Wrapped
            { context := none, inner := intoI e, location := loc })) ∧
    ((try_collect_or_stash dispM intoI errIntoI items st loc).1 =
        StashedResult.Err ↔
      st.errors.length <
        (try_collect_or_stash dispM intoI errIntoI items st loc).2.errors.length) ∧
    (errItems items = [] →
      (try_collect_or_stash dispM intoI errIntoI items st loc).1 =
        StashedResult.Ok (okItems items)) ∧
    (errItems items ≠ [] →
      (try_collect_or_stash dispM intoI errIntoI items st loc).1 =
        StashedResult.Err) := by
  have hcol := stashErrCollect_spec dispM errIntoI
    (items.map (fun x => or_wrap intoI x loc)) st loc
  rw [errItems_map_or_wrap, okItems_map_or_wrap, List.map_map] at hcol
  obtain ⟨hfst, hsnd⟩ := hcol
  simp only [try_collect_or_stash]
  by_cases hE : errItems items = []
  · rw [if_pos]
    · simp [hsnd, hfst, hE]
    · rw [hsnd, hE]
      simp
  · have hlen : st.errors.length <
        (stashErrCollect dispM errIntoI
          (items.map (fun x => or_wrap intoI x loc)) st loc).2.errors.length := by
      rw [hsnd]
      simp only [List.length_append, List.length_map]
      have : 0 < (errItems items).length := by
        cases h : errItems items with
        | nil => exact absurd h hE
        | cons a l => simp [h]
      omega
    rw [if_neg (by omega)]
    have hne : (stashErrCollect dispM errIntoI
        (items.map (fun x => or_wrap intoI x loc)) st loc).2.errors ≠ [] := by
      intro hnil
      rw [hnil] at hlen
      simp at hlen
    rw [enforce_errors_of_errors_ne_nil dispM errIntoI _ loc hne]
    refine ⟨hsnd ▸ by simp [Function.comp], ?_, fun h => absurd h hE, fun _ => rfl⟩
    simpa using hlen

/-- Witness for `tryCollectOrStash_spec` at a concrete run containing one
`Err` item. -/
theorem tryCollectOrStash_spec_witness :
    (try_collect_or_stash (fun m : String => m) (fun e : String => e)
        (fun _ : ErrorData String => "wrapped")
        [Except.ok 1, Except.error "x", Except.ok 2]
        (ErrorStash.Empty fun _ => "summary") "loc").1 =
      StashedResult.Err :=
  (tryCollectOrStash_spec (fun m : String => m) (fun e : String => e)
      (fun _ : ErrorData String => "wrapped")
      [Except.ok 1, Except.error "x", Except.ok 2]
      (ErrorStash.Empty fun _ => "summary") "loc").2.2.2 (by decide)

/-- For the `[Result<T, E1>; N]` variant: the failures encountered in
traversal order — each input `Err` element, and each `Err` produced by
the mapping function on an `Ok` element — converted into `I`. -/
def mixedErrs {T E1 E2 U I : Type} (intoI1 : E1 → I) (intoI2 : E2 → I)
    (f : T → Except E2 U) (arr : List (Except E1 T)) : List I :=
  arr.filterMap (fun x => match x with
    | Except.error e => some (intoI1 e)
    | Except.ok t =>
        match f t with
        | Except.error e2 => some (intoI2 e2)
        | Except.ok _ => none)

/-- For the `[Result<T, E1>; N]` variant: the successfully mapped values
in traversal order. -/
def mixedOks {T E1 E2 U : Type} (f : T → Except E2 U)
    (arr : List (Except E1 T)) : List U :=
  arr.filterMap (fun x => match x with
    | Except.ok t =>
        match f t with
        | Except.ok u => some u
        | Except.error _ => none
    | Except.error _ => none)

section MapLemmas

variable {M T E E1 E2 U I : Type}

theorem filter_map_or_stash_spec (dispM : M → String) (intoI : E → I)
    (f : T → Except E U) (arr : List T) (st : ErrorStash M I)
    (loc : Location) :
    (filter_map_or_stash dispM intoI f arr st loc).1 =
      okItems (arr.map f) ∧
    (filter_map_or_stash dispM intoI f arr st loc).2.errors =
      st.errors ++ (errItems (arr.map f)).map intoI := by
  induction arr generalizing st with
  | nil => simp [filter_map_or_stash, okItems_nil, errItems_nil]
  | cons t rest ih =>
      cases h : f t with
      | ok u =>
          simp only [filter_map_or_stash, h, List.map_cons, okItems_cons_ok,
            errItems_cons_ok, ih]
          simp [ih]
      | error e =>
          have := ih ((st.push dispM intoI e loc).1)
          simp only [filter_map_or_stash, h, List.map_cons,
            okItems_cons_error, errItems_cons_error, this, push_errors]
          simp

theorem mixedErrs_cons_error (intoI1 : E1 → I) (intoI2 : E2 → I)
    (f : T → Except E2 U) (e : E1) (rest : List (Except E1 T)) :
    mixedErrs intoI1 intoI2 f (Except.error e :: rest) =
      intoI1 e :: mixedErrs intoI1 intoI2 f rest := by
  simp [mixedErrs]

theorem mixedErrs_cons_ok (intoI1 : E1 → I) (intoI2 : E2 → I)
    (f : T → Except E2 U) (t : T) (rest : List (Except E1 T)) :
    mixedErrs intoI1 intoI2 f (Except.ok t :: rest) =
      (match f t with
        | Except.error e2 => [intoI2 e2]
        | Except.ok _ => []) ++ mixedErrs intoI1 intoI2 f rest := by
  cases h : f t <;> simp [mixedErrs, h]

theorem mixedOks_cons_error (f : T → Except E2 U) (e : E1)
    (rest : List (Except E1 T)) :
    mixedOks f (Except.error e :: rest) = mixedOks f rest := by
  simp [mixedOks]

theorem mixedOks_cons_ok (f : T → Except E2 U) (t : T)
    (rest : List (Except E1 T)) :
    mixedOks f (Except.ok t :: rest) =
      (match f t with
        | Except.ok u => [u]
        | Except.error _ => []) ++ mixedOks f rest := by
  cases h : f t <;> simp [mixedOks, h]

theorem mixedOks_mixedErrs_length (intoI1 : E1 → I) (intoI2 : E2 → I)
    (f : T → Except E2 U) (arr : List (Except E1 T)) :
    (mixedOks f arr).length + (mixedErrs intoI1 intoI2 f arr).length =
      arr.length := by
  induction arr with
  | nil => rfl
  | cons x rest ih =>
      cases x with
      | ok t =>
          rw [mixedOks_cons_ok, mixedErrs_cons_ok]
          cases h : f t <;> simp [h] <;> omega
      | error e =>
          rw [mixedOks_cons_error, mixedErrs_cons_error]
          simp
          omega

theorem filter_map_ok_or_stash_spec (dispM : M → String) (intoI1 : E1 → I)
    (intoI2 : E2 → I) (f : T → Except E2 U) (arr : List (Except E1 T))
    (st : ErrorStash M I) (loc : Location) :
    (filter_map_ok_or_stash dispM intoI1 intoI2 f arr st loc).1 =
      mixedOks f arr ∧
    (filter_map_ok_or_stash dispM intoI1 intoI2 f arr st loc).2.errors =
      st.errors ++ mixedErrs intoI1 intoI2 f arr := by
  induction arr generalizing st with
  | nil => simp [filter_map_ok_or_stash, mixedOks, mixedErrs]
  | cons x rest ih =>
      cases x with
      | ok t =>
          cases h : f t with
          | ok u =>
              simp only [filter_map_ok_or_stash, h, mixedOks_cons_ok,
                mixedErrs_cons_ok, ih]
              simp [h, ih]
          | error e2 =>
              have := ih ((st.push dispM intoI2 e2 loc).1)
              simp only [filter_map_ok_or_stash, h, mixedOks_cons_ok,
                mixedErrs_cons_ok, this, push_errors]
              simp [h]
      | error e =>
          have := ih ((st.push dispM intoI1 e loc).1)
          simp only [filter_map_ok_or_stash, mixedOks_cons_error,
            mixedErrs_cons_error, this, push_errors]
          simp

end MapLemmas

section MapParts

variable {M T E E1 E2 U I : Type}

theorem try_map_or_stash_parts (dispM : M → String) (intoI : E → I)
    (errIntoI : ErrorData I → I) (arr : List T) (f : T → Except E U)
    (st : ErrorStash M I) (loc : Location) :
    (try_map_or_stash dispM intoI errIntoI arr f st loc).2.errors =
      st.errors ++ (errItems (arr.map f)).map intoI ∧
    ((try_map_or_stash dispM intoI errIntoI arr f st loc).1 =
        StashedResult.Ok (okItems (arr.map f)) ↔
      (okItems (arr.map f)).length = arr.length) ∧
    ((try_map_or_stash dispM intoI errIntoI arr f st loc).1 =
        StashedResult.Err ↔
      (okItems (arr.map f)).length ≠ arr.length) := by
  obtain ⟨h1, h2⟩ := filter_map_or_stash_spec dispM intoI f arr st loc
  have hsum := okItems_errItems_length (arr.map f)
  rw [List.length_map] at hsum
  simp only [try_map_or_stash, vec_try_into_or_stash]
  rw [h1]
  split_ifs with hc hc2
  · have herr : errItems (arr.map f) ≠ [] := by
      intro hnil
      rw [hnil] at hsum
      simp at hsum
      omega
    have hne : (filter_map_or_stash dispM intoI f arr st loc).2.errors ≠ [] := by
      rw [h2]
      simp [herr]
    rw [enforce_errors_of_errors_ne_nil dispM errIntoI _ loc hne]
    exact ⟨h2, by simp [hc], by simp [hc]⟩
  · exact ⟨h2, by simp [hc2], by simp [hc2]⟩
  · exact absurd (by omega : (okItems (arr.map f)).length = arr.length) (by omega)

theorem try_map_or_stash_results_parts (dispM : M → String)
    (intoI1 : E1 → I) (intoI2 : E2 → I) (errIntoI : ErrorData I → I)
    (arr : List (Except E1 T)) (f : T → Except E2 U)
    (st : ErrorStash M I) (loc : Location) :
    (try_map_or_stash_results dispM intoI1 intoI2 errIntoI arr f st
        loc).2.errors =
      st.errors ++ mixedErrs intoI1 intoI2 f arr ∧
    ((try_map_or_stash_results dispM intoI1 intoI2 errIntoI arr f st
        loc).1 =
        StashedResult.Ok (mixedOks f arr) ↔
      (mixedOks f arr).length = arr.length) ∧
    ((try_map_or_stash_results dispM intoI1 intoI2 errIntoI arr f st
        loc).1 =
        StashedResult.Err ↔
      (mixedOks f arr).length ≠ arr.length) := by
  obtain ⟨h1, h2⟩ :=
    filter_map_ok_or_stash_spec dispM intoI1 intoI2 f arr st loc
  have hsum := mixedOks_mixedErrs_length intoI1 intoI2 f arr
  simp only [try_map_or_stash_results, vec_try_into_or_stash]
  rw [h1]
  split_ifs with hc hc2
  · have herr : mixedErrs intoI1 intoI2 f arr ≠ [] := by
      intro hnil
      rw [hnil] at hsum
      simp at hsum
      omega
    have hne : (filter_map_ok_or_stash dispM intoI1 intoI2 f arr st
        loc).2.errors ≠ [] := by
      rw [h2]
      simp [herr]
    rw [enforce_errors_of_errors_ne_nil dispM errIntoI _ loc hne]
    exact ⟨h2, by simp [hc], by simp [hc]⟩
  · exact ⟨h2, by simp [hc2], by simp [hc2]⟩
  · exact absurd (by omega : (mixedOks f arr).length = arr.length) (by omega)

end MapParts

/-- Claim C7: `try_map_or_stash` (over `[T; N]` and over `[Result; N]`)
pushes every input `Err` element and every `Err` produced by the mapping
function into the stash in traversal order, and returns the success
marker holding the mapped values in order exactly when the count of
successfully mapped values equals the array length (and the failure
marker otherwise); in particular, over a 2-element array whose elements
both fail, exactly 2 errors are accumulated and no success array is
produced. -/
theorem tryMapOrStash_spec {M T E E1 E2 U T2 U2 I : Type}
    (dispM : M → String) (intoI : E → I) (intoI1 : E1 → I)
    (intoI2 : E2 → I) (errIntoI : ErrorData I → I) :
    (∀ (arr : List T) (f : T → Except E U) (st : ErrorStash M I)
        (loc : Location),
      (try_map_or_stash dispM intoI errIntoI arr f st loc).2.errors =
        st.errors ++ (errItems (arr.map f)).map intoI ∧
      ((try_map_or_stash dispM intoI errIntoI arr f st loc).1 =
          StashedResult.Ok (okItems (arr.map f)) ↔
        (okItems (arr.map f)).length = arr.length) ∧
      ((try_map_or_stash dispM intoI errIntoI arr f st loc).1 =
          StashedResult.Err ↔
        (okItems (arr.map f)).length ≠ arr.length)) ∧
    (∀ (arr : List (Except E1 T2)) (f : T2 → Except E2 U2)
        (st : ErrorStash M I) (loc : Location),
      (try_map_or_stash_results dispM intoI1 intoI2 errIntoI arr f st
          loc).2.errors =
        st.errors ++ mixedErrs intoI1 intoI2 f arr ∧
      ((try_map_or_stash_results dispM intoI1 intoI2 errIntoI arr f st
          loc).1 =
          StashedResult.Ok (mixedOks f arr) ↔
        (mixedOks f arr).length = arr.length) ∧
      ((try_map_or_stash_results dispM intoI1 intoI2 errIntoI arr f st
          loc).1 =
          StashedResult.Err ↔
        (mixedOks f arr).length ≠ arr.length)) ∧
    ((try_map_or_stash (fun m : String => m) (fun e : String => e)
        (fun _ : ErrorData String => "E") ["x", "y"]
        (fun _ : String => (Except.error "bad" : Except String String))
        (ErrorStash.Empty fun _ => "s")
        "loc").2.errors.length = 2 ∧
      (try_map_or_stash (fun m : String => m) (fun e : String => e)
        (fun _ : ErrorData String => "E") ["x", "y"]
        (fun _ : String => (Except.error "bad" : Except String String))
        (ErrorStash.Empty fun _ => "s")
        "loc").1 = StashedResult.Err) :=
  ⟨fun arr f st loc => try_map_or_stash_parts dispM intoI errIntoI arr f st loc,
   fun arr f st loc =>
     try_map_or_stash_results_parts dispM intoI1 intoI2 errIntoI arr f st loc,
   by constructor
      · rfl
      · rfl⟩

end LazyErrors
